import Mathlib

/-!
# Verification of the AppLayout client orchestrator

Shallow embedding of `src/frontend/src/components/layout/AppLayout.tsx`:
the link extractor, address derivation, numeric input conversion, the five
action handlers (modelled as effect-trace producers), and the deep-link
resolution state machine.

Strings are modelled as `List Char` (JS strings), addresses as `List Nat`
(byte sequences).  Asynchronous handlers are modelled as pure functions from
an environment (which supplies the outcome of every external call) to the
ordered list of external effects they issue together with the ordered list
of status-banner writes; `await` is sequential composition, exactly as in
the single-threaded JS dispatch model.
-/

set_option linter.unusedVariables false

/-! ## Characters and string utilities -/

/-- Whitespace as matched by the JS `trim` / `\s` forms exercised here
(space, tab, newline, carriage return). -/
def jsWs (c : Char) : Bool :=
  c == ' ' || c == '\t' || c == '\n' || c == '\r'

/-- JS `String.prototype.trim`. -/
def trimList (s : List Char) : List Char :=
  ((s.dropWhile jsWs).reverse.dropWhile jsWs).reverse

/-- JS `String.prototype.startsWith`: `strStartsWith s pat` is true iff `pat`
is a prefix of `s`. -/
def strStartsWith : List Char → List Char → Bool
  | _, [] => true
  | [], _ :: _ => false
  | c :: cs, p :: ps => c == p && strStartsWith cs ps

/-- The slice after the first occurrence of `pat` (JS
`s.slice(s.indexOf(pat) + pat.length)`); `none` when `pat` does not occur
(JS `includes` returning false). -/
def afterFirst (pat : List Char) : List Char → Option (List Char)
  | [] => if pat.isEmpty then some [] else none
  | c :: t =>
    if strStartsWith (c :: t) pat then some ((c :: t).drop pat.length)
    else afterFirst pat t

/-- JS `String.prototype.split` on a single-character separator. -/
def splitOnChar (sep : Char) : List Char → List (List Char)
  | [] => [[]]
  | c :: t =>
    match splitOnChar sep t with
    | [] => [[]]
    | h :: r => if c == sep then [] :: h :: r else (c :: h) :: r

/-! ## URL model

Modelled from the platform: the WHATWG `URL` constructor and
`searchParams.get`, restricted to absolute `http(s)` URLs (the only scheme
the code feeds it: the extractor checks the scheme first, and the page href
is an `https` URL).  Percent-decoding and `+`-decoding are omitted; they are
the identity on every input the claims exercise.  A `none` result of
`urlQueryOf` models the constructor throwing (malformed URL, e.g. an empty
host). -/

/-- The remainder of `s` after its `http://` or `https://` scheme, `none`
when neither scheme is present (the `URL` constructor would not parse it as
an http URL here). -/
def schemeRest (s : List Char) : Option (List Char) :=
  if strStartsWith s "http://".data then some (s.drop 7)
  else if strStartsWith s "https://".data then some (s.drop 8)
  else none

/-- Predicate for characters that terminate the host component. -/
def hostEnd (c : Char) : Bool := c == '/' || c == '?' || c == '#'

/-- The query string (without the leading `?`) of an absolute http(s) URL;
`none` models a parse failure (no scheme or empty host), `some []` a URL
with no query. -/
def urlQueryOf (s : List Char) : Option (List Char) :=
  match schemeRest s with
  | none => none
  | some rest =>
    if (rest.takeWhile (fun c => !hostEnd c)).isEmpty then none
    else
      some ((((rest.dropWhile (fun c => !hostEnd c)).takeWhile
        (fun c => !(c == '#'))).dropWhile (fun c => !(c == '?'))).drop 1)

/-- The name of a `name=value` query pair (everything before the first `=`). -/
def pairKey (p : List Char) : List Char := p.takeWhile (fun c => !(c == '='))

/-- The value of a `name=value` query pair (everything after the first `=`;
`[]` when there is no `=`, as `searchParams` reports `""`). -/
def pairVal (p : List Char) : List Char :=
  (p.dropWhile (fun c => !(c == '='))).drop 1

/-- `searchParams.get(key)` on a query string: first matching pair wins,
empty `&&`-segments are skipped, `none` when the parameter is absent. -/
def searchParamsGet (key query : List Char) : Option (List Char) :=
  match ((splitOnChar '&' query).filter (fun p => !p.isEmpty)).find?
      (fun p => pairKey p == key) with
  | none => none
  | some p => some (pairVal p)

/-! ## The link extractor (`extractTicketAddressFromInput`, lines 45-71) -/

/-- The URL branch of the extractor (case 1 in the source): parse as URL,
read the `ticket` parameter; a falsy (`null` or empty) parameter and a parse
failure both yield `null`. -/
def urlTicketRule (trimmed : List Char) : Option (List Char) :=
  match urlQueryOf trimmed with
  | none => none
  | some query =>
    match searchParamsGet "ticket".data query with
    | none => none
    | some v => if v.isEmpty then none else some (trimList v)

/-- The `ticket=` substring branch of the extractor (case 2 in the source):
`after` is the slice after the first `ticket=`; split on `[&#?\s]`, keep the
first piece, trim, empty is falsy (`null`). -/
def ticketSubstringRule (after : List Char) : Option (List Char) :=
  let cand := after.takeWhile
    (fun c => !(c == '&' || c == '#' || c == '?' || jsWs c))
  if (trimList cand).isEmpty then none else some (trimList cand)

/-- `extractTicketAddressFromInput` (lines 45-71): trim; empty is `null`;
an http(s)-scheme input goes to the URL rule; else an input containing
`ticket=` goes to the substring rule; else the trimmed input is returned
verbatim. -/
def extractTicketAddressFromInput (raw : List Char) : Option (List Char) :=
  if (trimList raw).isEmpty then none
  else if strStartsWith (trimList raw) "http://".data
      || strStartsWith (trimList raw) "https://".data then
    urlTicketRule (trimList raw)
  else
    match afterFirst "ticket=".data (trimList raw) with
    | some after => ticketSubstringRule after
    | none => some (trimList raw)

/-! ## Base58 public keys

Modelled from the platform: `new PublicKey(string)` base58-decodes the
string and requires exactly 32 bytes; `none` models the constructor
throwing. -/

/-- The base58 alphabet used by the platform `PublicKey` parser. -/
def base58Alphabet : List Char :=
  "123456789ABCDEFGHJKLMNPQRSTUVWXYZabcdefghijkmnopqrstuvwxyz".data

/-- The value of one base58 digit, `none` for a character outside the
alphabet. -/
def base58DigitVal (c : Char) : Option Nat :=
  base58Alphabet.findIdx? (fun a => a == c)

/-- Big-endian base-256 digits of `n` (no leading zero byte); the fuel
argument is an upper bound on the number of digits (`n` itself suffices). -/
def natToBytesBEAux (fuel n : Nat) : List Nat :=
  match fuel with
  | 0 => []
  | f + 1 => if n = 0 then [] else natToBytesBEAux f (n / 256) ++ [n % 256]

/-- Big-endian byte representation of `n` (empty for `0`). -/
def natToBytesBE (n : Nat) : List Nat := natToBytesBEAux n n

/-- Base58 decoding: every character must be in the alphabet; one leading
`1` contributes one leading zero byte. -/
def base58Decode (s : List Char) : Option (List Nat) :=
  match s.mapM base58DigitVal with
  | none => none
  | some ds =>
    let n := ds.foldl (fun a d => a * 58 + d) 0
    let zeros := (s.takeWhile (fun c => c == '1')).length
    some (List.replicate zeros 0 ++ natToBytesBE n)

/-- `new PublicKey(string)`: base58 decode, exactly 32 bytes required;
`none` models the constructor throwing. -/
def parsePubkey (s : List Char) : Option (List Nat) :=
  match base58Decode s with
  | none => none
  | some bs => if bs.length = 32 then some bs else none

/-! ## Address derivation -/

/-- Modelled from the spec: `utf8` from `../../solana/utils` (not under
`src/`), "fixed string tags" as seed byte sequences — UTF-8 encoding of an
ASCII tag, i.e. its character codes. -/
def utf8 (s : String) : List Nat := s.data.map (fun c => c.toNat)

/-- Modelled from the spec: `bnToLe8` from `../../solana/utils` (not under
`src/`) — "numeric id as fixed-width little-endian bytes", 8 bytes. -/
def bnToLe8 (n : Nat) : List Nat :=
  (List.range 8).map (fun i => n / 256 ^ i % 256)

/-- Modelled from the spec: `PROGRAM_ID` from `../../solana/config` (not
under `src/`) — the fixed backend program address, an opaque 32-byte
constant. -/
def PROGRAM_ID : List Nat := List.replicate 32 0

/-- Modelled from the spec: the platform `PublicKey.findProgramAddressSync`
— a deterministic, side-effect-free function of the ordered seed byte
sequences and the program id.  The SHA-256 construction is abstracted as an
injective length-prefixed encoding; only its functional determinism is used
by the claims. -/
def findProgramAddressSync (seeds : List (List Nat)) (programId : List Nat) :
    List Nat :=
  (seeds.map (fun s => s.length :: s)).flatten ++ programId

/-- `deriveEventPdaFromSigner` (lines 123-129): tag `"event"`, seeds
`[signer bytes, event id as 8-byte little-endian]`. -/
def deriveEventPdaFromSigner (signer : List Nat) (eventId : Nat) : List Nat :=
  findProgramAddressSync [utf8 "event", signer, bnToLe8 eventId] PROGRAM_ID

/-- The ticket PDA derivation inlined in `handleJoinEvent` (lines 306-309):
tag `"ticket"`, seeds `[event address bytes, buyer key bytes]`. -/
def deriveTicketPda (eventPda user : List Nat) : List Nat :=
  findProgramAddressSync [utf8 "ticket", eventPda, user] PROGRAM_ID

/-- The mint-authority PDA derivation inlined in `handleJoinEvent`
(lines 262-265): tag `"mint_auth"`, seed `[mint bytes]`. -/
def deriveMintAuthPda (mint : List Nat) : List Nat :=
  findProgramAddressSync [utf8 "mint_auth", mint] PROGRAM_ID

/-! ## JS number parsing and unit conversion

Modelled from the platform: `parseFloat` (without the exponent and
`Infinity` forms, which no input of the claims exercises) parses the longest
numeric literal at the front of the string and yields `NaN` (here: `none`)
when no digit is found.  The parsed value is represented exactly as
`m / 10 ^ f` (JS doubles and this exact representation agree on every
concrete value and comparison the claims exercise). -/

/-- Exact JS number: the value `m / 10 ^ f`. -/
structure JsNum where
  m : Int
  f : Nat
deriving DecidableEq

/-- Decimal digits to a natural number. -/
def digitsToNat (ds : List Char) : Nat :=
  ds.foldl (fun a c => a * 10 + (c.toNat - 48)) 0

/-- JS `parseFloat`: skip leading whitespace, optional sign, integer digits,
optional `.` plus fraction digits; `none` (NaN) when no digit was consumed;
trailing non-numeric input is ignored. -/
def parseFloatJs (s : List Char) : Option JsNum :=
  let s1 := s.dropWhile jsWs
  let neg : Bool :=
    match s1 with
    | '-' :: _ => true
    | _ => false
  let s2 : List Char :=
    match s1 with
    | '-' :: r => r
    | '+' :: r => r
    | _ => s1
  let ip := s2.takeWhile Char.isDigit
  let rest := s2.dropWhile Char.isDigit
  let fp : List Char :=
    match rest with
    | '.' :: r => r.takeWhile Char.isDigit
    | _ => []
  if ip.isEmpty && fp.isEmpty then none
  else
    let mag : Nat := digitsToNat ip * 10 ^ fp.length + digitsToNat fp
    some ⟨if neg then -(mag : Int) else (mag : Int), fp.length⟩

/-- Modelled from the spec: `LAMPORTS_PER_SOL` from `../../solana/config`
(not under `src/`) — the smallest-unit scale, 10^9 lamports per SOL. -/
def LAMPORTS_PER_SOL : Nat := 1000000000

/-- JS `Math.floor(x * scale)` for the exact number `x = m / 10 ^ f`:
floor division (rounds toward minus infinity). -/
def jsFloorTimes (x : JsNum) (scale : Nat) : Int :=
  Int.fdiv (x.m * scale) (10 ^ x.f)

/-- JS `Math.round(x * scale)` for the exact number `x = m / 10 ^ f`:
`floor(x * scale + 1/2)` (halves round up). -/
def jsRoundTimes (x : JsNum) (scale : Nat) : Int :=
  Int.fdiv (2 * x.m * scale + 10 ^ x.f) (2 * 10 ^ x.f)

/-- Truncation toward zero of `x * scale`, following the spec's words
("convert to smallest-unit integer via truncation"); stated for comparison
against the code's `Math.floor`. -/
def specTruncTimes (x : JsNum) (scale : Nat) : Int :=
  Int.tdiv (x.m * scale) (10 ^ x.f)

/-- JS `s.replace(",", ".")`: replaces only the first occurrence. -/
def replaceFirstChar (pat rep : Char) : List Char → List Char
  | [] => []
  | c :: t => if c == pat then rep :: t else c :: replaceFirstChar pat rep t

/-- The price conversion of `handleCreateEvent` (lines 200-209): empty input
is falsy and becomes `"0"`; the first comma becomes a dot; `parseFloat`;
NaN or negative throws (`none`); otherwise `Math.round(price * 1e9)`. -/
def createEventPriceLamports (priceSol : List Char) : Option Int :=
  let src := if priceSol.isEmpty then ['0'] else priceSol
  match parseFloatJs (replaceFirstChar ',' '.' src) with
  | none => none
  | some x => if x.m < 0 then none else some (jsRoundTimes x LAMPORTS_PER_SOL)

/-- The amount conversion of `handleWithdraw` (lines 349-351), with the unit
scale as a parameter: empty input is falsy and becomes `"0"`; `parseFloat`
(no comma normalization); `Math.floor(amount * scale)`.  A NaN parse yields
`none`: `Math.floor(NaN)` is NaN and the subsequent `new BN(NaN.toString())`
throws, so no integer amount exists. -/
def withdrawAmountAtScale (scale : Nat) (amountSol : List Char) : Option Int :=
  match parseFloatJs (if amountSol.isEmpty then ['0'] else amountSol) with
  | none => none
  | some x => some (jsFloorTimes x scale)

/-- The amount conversion of `handleWithdraw` at the lamport scale. -/
def withdrawAmountLamports : List Char → Option Int :=
  withdrawAmountAtScale LAMPORTS_PER_SOL

/-! ## Data model -/

/-- `EventAccount` (from `../../solana/types`, shape as used here): the
on-chain event record as loaded client-side.  Only the fields this component
reads are modelled. -/
structure EventAccount where
  pubkey : List Nat
  organizer : List Nat
deriving DecidableEq

/-- `TicketAccount` as fetched by the check-in and deep-link flows: the
owning event's address and the checked-in flag. -/
structure TicketAccount where
  event : List Nat
  checkedIn : Bool
deriving DecidableEq

/-- External effects issued by the handlers, in program order: each
constructor is one awaited external call of `AppLayout.tsx`. -/
inductive Eff where
  | getRent
  | sendSetupTx (mint mintAuth : List Nat)
  | rpcInitEvent (eventPda : List Nat) (eventId : Nat) (priceLamports : Int)
  | rpcJoinEvent (ticketPda : List Nat)
  | rpcWithdraw (amountLamports : Int) (eventPubkey : List Nat)
  | rpcCheckIn (eventPda ticketPubkey : List Nat)
  | fetchTicket (ticketPubkey : List Nat)
  | refreshEvents
  | refreshTickets
deriving DecidableEq

/-- Status-banner writes (`setTxStatus`), one constructor per distinct
message of the source; `failure` is the `handleError` path (a `❌` message
derived from the caught error). -/
inductive StatusMsg where
  | creatingEvent
  | eventCreated
  | preparingJoin
  | callingJoin
  | joinedEvent
  | sendingWithdraw
  | withdrawDone
  | checkingIn
  | checkInDone
  | errSelectEventJoin
  | errSelectEventWithdraw
  | errEventNotFound
  | errNotOrganizer
  | errNoTicketInScan
  | errInvalidTicketPubkey
  | errNotTicketAccount
  | errDifferentEvent
  | infoAlreadyCheckedIn
  | errInvalidDeepLinkTicket
  | failure
deriving DecidableEq

/-- Whether a status write is an error (`❌` messages and the `handleError`
path); the already-checked-in message is informational (`ℹ️`), progress and
success messages are not errors. -/
def isErrorStatus : StatusMsg → Bool
  | .errSelectEventJoin => true
  | .errSelectEventWithdraw => true
  | .errEventNotFound => true
  | .errNotOrganizer => true
  | .errNoTicketInScan => true
  | .errInvalidTicketPubkey => true
  | .errNotTicketAccount => true
  | .errDifferentEvent => true
  | .errInvalidDeepLinkTicket => true
  | .failure => true
  | _ => false

/-! ## Action handlers as effect-trace producers

Each handler takes an environment supplying the availability of the program
handle and wallet key and the outcome of each external call, and returns the
ordered effects it issues paired with the ordered status writes.  Payload
data not observable in the claims (signatures, form texts, instruction
contents) is elided; errors are `Except Unit`. -/

/-- Environment of `handleCreateEvent`: `now` is `Date.now()` (the fresh
numeric event id). -/
structure CreateEnv where
  programAvailable : Bool
  walletKey : Option (List Nat)
  now : Nat
  initEventResult : Except Unit (List Char)

/-- `handleCreateEvent` (lines 188-232): guard; progress status; validate
and convert the price (a domain error throws before any submission);
derive the event PDA; submit `initEvent`; report success (and refresh) or
failure. -/
def handleCreateEvent (env : CreateEnv) (priceSol title description : List Char) :
    List Eff × List StatusMsg :=
  match env.walletKey with
  | none => ([], [])
  | some w =>
    if !env.programAvailable then ([], [])
    else
      match createEventPriceLamports priceSol with
      | none => ([], [.creatingEvent, .failure])
      | some p =>
        let eventPda := deriveEventPdaFromSigner w env.now
        match env.initEventResult with
        | .error _ => ([.rpcInitEvent eventPda env.now p], [.creatingEvent, .failure])
        | .ok _ =>
          ([.rpcInitEvent eventPda env.now p, .refreshEvents],
           [.creatingEvent, .eventCreated])

/-- Environment of `handleJoinEvent`: `mintKey` is the freshly generated
`Keypair.generate()` key material. -/
structure JoinEnv where
  programAvailable : Bool
  walletKey : Option (List Nat)
  events : List EventAccount
  mintKey : List Nat
  rentResult : Except Unit Nat
  sendSetupResult : Except Unit (List Char)
  joinRpcResult : Except Unit (List Char)

/-- `handleJoinEvent` (lines 236-331): guard; missing selection; parse the
event address (a throw is caught); resolve the event in the local list;
derive mint-authority; await rent; send the setup transaction (create mint
account, initialize mint, create buyer ATA) as one transaction; only after
it succeeds, derive the ticket PDA and submit `joinEvent`; report. -/
def handleJoinEvent (env : JoinEnv) (eventPubkeyParam : List Char) :
    List Eff × List StatusMsg :=
  match env.walletKey with
  | none => ([], [])
  | some user =>
    if !env.programAvailable then ([], [])
    else if eventPubkeyParam.isEmpty then ([], [.errSelectEventJoin])
    else
      match parsePubkey eventPubkeyParam with
      | none => ([], [.preparingJoin, .failure])
      | some eventPubkey =>
        match env.events.find? (fun e => e.pubkey == eventPubkey) with
        | none => ([], [.preparingJoin, .errEventNotFound])
        | some _ =>
          let mint := env.mintKey
          let mintAuthPda := deriveMintAuthPda mint
          match env.rentResult with
          | .error _ => ([.getRent], [.preparingJoin, .failure])
          | .ok _ =>
            match env.sendSetupResult with
            | .error _ =>
              ([.getRent, .sendSetupTx mint mintAuthPda],
               [.preparingJoin, .failure])
            | .ok _ =>
              let ticketPda := deriveTicketPda eventPubkey user
              match env.joinRpcResult with
              | .error _ =>
                ([.getRent, .sendSetupTx mint mintAuthPda, .rpcJoinEvent ticketPda],
                 [.preparingJoin, .callingJoin, .failure])
              | .ok _ =>
                ([.getRent, .sendSetupTx mint mintAuthPda, .rpcJoinEvent ticketPda,
                  .refreshTickets],
                 [.preparingJoin, .callingJoin, .joinedEvent])

/-- Environment of `handleWithdraw`. -/
structure WithdrawEnv where
  programAvailable : Bool
  walletKey : Option (List Nat)
  withdrawResult : Except Unit (List Char)

/-- `handleWithdraw` (lines 335-366): guard; missing selection; progress
status; parse the event address (a throw is caught); convert the amount
(`parseFloat`, `Math.floor`; a NaN amount makes the `BN` construction
throw); submit `withdraw`; report. -/
def handleWithdraw (env : WithdrawEnv) (eventPubkeyParam amountSol : List Char) :
    List Eff × List StatusMsg :=
  match env.walletKey with
  | none => ([], [])
  | some w =>
    if !env.programAvailable then ([], [])
    else if eventPubkeyParam.isEmpty then ([], [.errSelectEventWithdraw])
    else
      match parsePubkey eventPubkeyParam with
      | none => ([], [.sendingWithdraw, .failure])
      | some eventPubkey =>
        match withdrawAmountLamports amountSol with
        | none => ([], [.sendingWithdraw, .failure])
        | some amount =>
          match env.withdrawResult with
          | .error _ => ([.rpcWithdraw amount eventPubkey], [.sendingWithdraw, .failure])
          | .ok _ => ([.rpcWithdraw amount eventPubkey], [.sendingWithdraw, .withdrawDone])

/-- Environment of the two check-in handlers. -/
structure CheckInEnv where
  programAvailable : Bool
  walletKey : Option (List Nat)
  fetchTicketAcc : List Nat → Except Unit TicketAccount
  checkInResult : Except Unit (List Char)

/-- `handleCheckIn` (lines 370-398), the self-service flow: guard; organizer
pre-check; progress status; submit `checkIn`; report. -/
def handleCheckIn (env : CheckInEnv) (ticketPubkey : List Nat)
    (event : EventAccount) : List Eff × List StatusMsg :=
  match env.walletKey with
  | none => ([], [])
  | some w =>
    if !env.programAvailable then ([], [])
    else if !(event.organizer == w) then ([], [.errNotOrganizer])
    else
      match env.checkInResult with
      | .error _ => ([.rpcCheckIn event.pubkey ticketPubkey], [.checkingIn, .failure])
      | .ok _ =>
        ([.rpcCheckIn event.pubkey ticketPubkey, .refreshTickets],
         [.checkingIn, .checkInDone])

/-- `handleOrganizerCheckInByAddress` (lines 402-475): guard; run the
extractor (a falsy result is the "could not find a ticket address"
diagnostic); organizer pre-check; parse the address (`new PublicKey` throw
caught as "invalid ticket public key"); fetch the ticket (a fetch error is
"not a Ticket account"); wrong event; already checked in (informational
no-op); only then submit `checkIn` and report. -/
def handleOrganizerCheckInByAddress (env : CheckInEnv)
    (ticketAddress : List Char) (event : EventAccount) :
    List Eff × List StatusMsg :=
  match env.walletKey with
  | none => ([], [])
  | some w =>
    if !env.programAvailable then ([], [])
    else
      match extractTicketAddressFromInput ticketAddress with
      | none => ([], [.errNoTicketInScan])
      | some extracted =>
        if extracted.isEmpty then ([], [.errNoTicketInScan])
        else if !(event.organizer == w) then ([], [.errNotOrganizer])
        else
          match parsePubkey extracted with
          | none => ([], [.errInvalidTicketPubkey])
          | some ticketPubkey =>
            match env.fetchTicketAcc ticketPubkey with
            | .error _ => ([.fetchTicket ticketPubkey], [.errNotTicketAccount])
            | .ok ticketAcc =>
              if !(ticketAcc.event == event.pubkey) then
                ([.fetchTicket ticketPubkey], [.errDifferentEvent])
              else if ticketAcc.checkedIn then
                ([.fetchTicket ticketPubkey], [.infoAlreadyCheckedIn])
              else
                match env.checkInResult with
                | .error _ =>
                  ([.fetchTicket ticketPubkey, .rpcCheckIn event.pubkey ticketPubkey],
                   [.checkingIn, .failure])
                | .ok _ =>
                  ([.fetchTicket ticketPubkey, .rpcCheckIn event.pubkey ticketPubkey,
                    .refreshTickets],
                   [.checkingIn, .checkInDone])

/-! ## The deep-link resolution state machine

The three `useEffect` stages (lines 134-184) as explicit step functions on
the reactive state they read and write.  Each step function is one run of
the corresponding effect; re-running a stage is re-applying its step. -/

/-- The main-tab state. -/
inductive MainTab where
  | explore
  | tickets
  | manage
deriving DecidableEq

/-- The reactive state the deep-link flow reads and writes. -/
structure DeepSt where
  deepLinkTicket : Option (List Char)
  deepLinkEventPubkey : Option (List Nat)
  selectedEvent : Option EventAccount
  mainTab : MainTab
  txStatus : Option StatusMsg
deriving DecidableEq

/-- The state at a fresh page load (`useState` initial values). -/
def initSt : DeepSt :=
  { deepLinkTicket := none
    deepLinkEventPubkey := none
    selectedEvent := none
    mainTab := .explore
    txStatus := none }

/-- The mount effect (lines 134-148): parse `?ticket=` from the page URL
once; a truthy parameter is captured (trimmed) and the view is forced to the
explore tab; a parse failure or falsy parameter leaves the state unchanged. -/
def stepParseUrl (href : List Char) (s : DeepSt) : DeepSt :=
  match urlQueryOf href with
  | none => s
  | some query =>
    match searchParamsGet "ticket".data query with
    | none => s
    | some v =>
      if v.isEmpty then s
      else { s with deepLinkTicket := some (trimList v), mainTab := .explore }

/-- The ticket-fetch effect (lines 151-167), dependencies
`[program, deepLinkTicket]`: once both are available, parse the raw ticket
and fetch it; on success capture its owning event; on failure (parse throw
or fetch error) surface the invalid-ticket diagnostic and set the parent to
`null`. -/
def stepFetchTicket (programAvailable : Bool)
    (fetch : List Nat → Except Unit TicketAccount) (s : DeepSt) : DeepSt :=
  if !programAvailable then s
  else
    match s.deepLinkTicket with
    | none => s
    | some t =>
      match parsePubkey t with
      | none =>
        { s with txStatus := some .errInvalidDeepLinkTicket,
                 deepLinkEventPubkey := none }
      | some pk =>
        match fetch pk with
        | .error _ =>
          { s with txStatus := some .errInvalidDeepLinkTicket,
                   deepLinkEventPubkey := none }
        | .ok acc => { s with deepLinkEventPubkey := some acc.event }

/-- The selection effect (lines 171-184), dependencies
`[deepLinkEventPubkey, events]`: once the parent is known and the events
collection is non-empty, select the matching event (and force the explore
tab); a missing match only logs a diagnostic and changes nothing. -/
def stepSelectEvent (events : List EventAccount) (s : DeepSt) : DeepSt :=
  match s.deepLinkEventPubkey with
  | none => s
  | some pk =>
    if events.isEmpty then s
    else
      match events.find? (fun ev => ev.pubkey == pk) with
      | some m => { s with selectedEvent := some m, mainTab := .explore }
      | none => s

/-! ## Identifier alphabet

"Valid identifiers" of the testable properties: non-empty strings of base58
/ alphanumeric characters — no whitespace, no URL-significant character. -/

/-- An identifier character: ASCII digit or letter. -/
def isIdChar (c : Char) : Bool :=
  (decide (48 ≤ c.toNat) && decide (c.toNat ≤ 57)) ||
  (decide (65 ≤ c.toNat) && decide (c.toNat ≤ 90)) ||
  (decide (97 ≤ c.toNat) && decide (c.toNat ≤ 122))

/-- A valid identifier: non-empty, all characters alphanumeric. -/
def validId (id : List Char) : Prop :=
  id ≠ [] ∧ ∀ c ∈ id, isIdChar c = true

/-! ## Helper lemmas: characters -/

theorem idChar_not_ws {c : Char} (h : isIdChar c = true) : jsWs c = false := by
  rw [Bool.eq_false_iff]
  intro hw
  simp only [jsWs, Bool.or_eq_true, beq_iff_eq] at hw
  rcases hw with ((rfl | rfl) | rfl) | rfl <;> revert h <;> decide

theorem idChar_ne {c x : Char} (h : isIdChar c = true) (hx : isIdChar x = false) :
    (c == x) = false := by
  rw [Bool.eq_false_iff]
  intro hb
  have hcx := eq_of_beq hb
  subst hcx
  rw [h] at hx
  cases hx

theorem idChar_sep {c : Char} (h : isIdChar c = true) :
    (!(c == '&' || c == '#' || c == '?' || jsWs c)) = true := by
  simp only [Bool.not_eq_true', Bool.or_eq_false_iff]
  exact ⟨⟨⟨idChar_ne h (by decide), idChar_ne h (by decide)⟩,
    idChar_ne h (by decide)⟩, idChar_not_ws h⟩

/-! ## Helper lemmas: lists -/

theorem dropWhile_eq_self_of_all {p : Char → Bool} {l : List Char}
    (h : ∀ c ∈ l, p c = false) : l.dropWhile p = l := by
  cases l with
  | nil => rfl
  | cons a t => simp [List.dropWhile_cons, h a (List.mem_cons_self a t)]

theorem trimList_eq_self_all {s : List Char} (h : ∀ c ∈ s, jsWs c = false) :
    trimList s = s := by
  unfold trimList
  rw [dropWhile_eq_self_of_all h,
    dropWhile_eq_self_of_all (fun c hc => h c (List.mem_reverse.mp hc)),
    List.reverse_reverse]

theorem trimList_eq_self_ends {s : List Char}
    (h1 : ∀ c, s.head? = some c → jsWs c = false)
    (h2 : ∀ c, s.getLast? = some c → jsWs c = false) :
    trimList s = s := by
  cases s with
  | nil => rfl
  | cons a t =>
    have ha : jsWs a = false := h1 a rfl
    have d1 : (a :: t).dropWhile jsWs = a :: t := by
      simp [List.dropWhile_cons, ha]
    cases hr : (a :: t).reverse with
    | nil => exact absurd hr (by simp)
    | cons b r =>
      have hb : jsWs b = false := by
        apply h2
        rw [← List.head?_reverse, hr]
        rfl
      have d2 : (a :: t).reverse.dropWhile jsWs = (a :: t).reverse := by
        rw [hr]
        simp [List.dropWhile_cons, hb]
      unfold trimList
      rw [d1, d2, List.reverse_reverse]

theorem strStartsWith_nil_pat (s : List Char) : strStartsWith s [] = true := by
  cases s <;> rfl

theorem strStartsWith_cons {c p : Char} {cs ps : List Char} :
    strStartsWith (c :: cs) (p :: ps) = ((c == p) && strStartsWith cs ps) := rfl

theorem strStartsWith_append_of_le {s t pat : List Char}
    (h : pat.length ≤ s.length) :
    strStartsWith (s ++ t) pat = strStartsWith s pat := by
  induction pat generalizing s with
  | nil => simp [strStartsWith_nil_pat]
  | cons p ps ih =>
    cases s with
    | nil => simp at h
    | cons c cs =>
      have h' : ps.length ≤ cs.length := by simp at h; omega
      simp [List.cons_append, strStartsWith_cons, ih h']

theorem strStartsWith_append_self (l r : List Char) :
    strStartsWith (l ++ r) l = true := by
  induction l with
  | nil => simp [strStartsWith_nil_pat]
  | cons c cs ih => simp [List.cons_append, strStartsWith_cons, ih]

theorem splitOnChar_eq_single {sep : Char} {l : List Char}
    (h : ∀ c ∈ l, (c == sep) = false) : splitOnChar sep l = [l] := by
  induction l with
  | nil => rfl
  | cons c t ih =>
    have ht := ih (fun x hx => h x (List.mem_cons_of_mem c hx))
    simp [splitOnChar, ht, h c (List.mem_cons_self c t)]

theorem takeWhile_all_true {p : Char → Bool} {l : List Char}
    (h : ∀ c ∈ l, p c = true) : l.takeWhile p = l := by
  induction l with
  | nil => rfl
  | cons c t ih =>
    simp [List.takeWhile_cons, h c (List.mem_cons_self c t),
      ih (fun x hx => h x (List.mem_cons_of_mem c hx))]

theorem takeWhile_append_not_all {p : Char → Bool} {l₁ l₂ : List Char}
    (h : l₁.all p = false) : (l₁ ++ l₂).takeWhile p = l₁.takeWhile p := by
  induction l₁ with
  | nil => simp at h
  | cons c t ih =>
    cases hc : p c with
    | false => simp [List.takeWhile_cons, hc]
    | true =>
      have ht : t.all p = false := by
        cases hta : t.all p with
        | false => rfl
        | true => rw [List.all_cons, hc, hta] at h; exact absurd h (by decide)
      simp [List.takeWhile_cons, hc, ih ht]

theorem dropWhile_append_not_all {p : Char → Bool} {l₁ l₂ : List Char}
    (h : l₁.all p = false) : (l₁ ++ l₂).dropWhile p = l₁.dropWhile p ++ l₂ := by
  induction l₁ with
  | nil => simp at h
  | cons c t ih =>
    cases hc : p c with
    | false => simp [List.dropWhile_cons, hc]
    | true =>
      have ht : t.all p = false := by
        cases hta : t.all p with
        | false => rfl
        | true => rw [List.all_cons, hc, hta] at h; exact absurd h (by decide)
      simp [List.dropWhile_cons, hc, ih ht]

theorem drop_append_le {n : Nat} {l₁ l₂ : List Char} (h : n ≤ l₁.length) :
    (l₁ ++ l₂).drop n = l₁.drop n ++ l₂ := by
  induction n generalizing l₁ with
  | zero => simp
  | succ k ih =>
    cases l₁ with
    | nil => simp at h
    | cons c t =>
      have h' : k ≤ t.length := by simp at h; omega
      simp only [List.cons_append, List.drop_succ_cons]
      exact ih h'

/-! ## Helper lemmas: the extractor on identifier-shaped inputs -/

theorem urlQueryOf_ticket_append {id : List Char}
    (hv : ∀ c ∈ id, isIdChar c = true) :
    urlQueryOf ("https://host/path?ticket=".data ++ id)
      = some ("ticket=".data ++ id) := by
  have hsr : schemeRest ("https://host/path?ticket=".data ++ id)
      = some ("host/path?ticket=".data ++ id) := by
    unfold schemeRest
    rw [strStartsWith_append_of_le (by decide),
      strStartsWith_append_of_le (by decide)]
    rw [show strStartsWith "https://host/path?ticket=".data "http://".data = false
      from by decide]
    rw [show strStartsWith "https://host/path?ticket=".data "https://".data = true
      from by decide]
    simp only [Bool.false_eq_true, if_false, if_true]
    rw [drop_append_le (by decide)]
    rfl
  have hhost : (("host/path?ticket=".data ++ id).takeWhile
      (fun c => !hostEnd c)).isEmpty = false := by
    rw [takeWhile_append_not_all (by decide)]
    decide
  have hdh : ("host/path?ticket=".data ++ id).dropWhile (fun c => !hostEnd c)
      = "/path?ticket=".data ++ id := by
    rw [dropWhile_append_not_all (by decide)]
    rfl
  have hfrag : ("/path?ticket=".data ++ id).takeWhile (fun c => !(c == '#'))
      = "/path?ticket=".data ++ id := by
    rw [List.takeWhile_append_of_pos (by decide)]
    rw [takeWhile_all_true (fun c hc => by
      rw [Bool.not_eq_true']
      exact idChar_ne (hv c hc) (by decide))]
  have hq : ("/path?ticket=".data ++ id).dropWhile (fun c => !(c == '?'))
      = "?ticket=".data ++ id := by
    rw [dropWhile_append_not_all (by decide)]
    rfl
  unfold urlQueryOf
  rw [hsr]
  simp only [hhost, Bool.false_eq_true, if_false]
  rw [hdh, hfrag, hq]
  rfl

theorem searchParamsGet_ticket_append {id : List Char}
    (hv : ∀ c ∈ id, isIdChar c = true) :
    searchParamsGet "ticket".data ("ticket=".data ++ id) = some id := by
  have hsplit : splitOnChar '&' ("ticket=".data ++ id)
      = ["ticket=".data ++ id] := by
    apply splitOnChar_eq_single
    intro c hc
    rcases List.mem_append.mp hc with h | h
    · have hconc : ∀ c ∈ "ticket=".data, (c == '&') = false := by decide
      exact hconc c h
    · exact idChar_ne (hv c h) (by decide)
  have hkey : pairKey ("ticket=".data ++ id) = "ticket".data := by
    unfold pairKey
    rw [takeWhile_append_not_all (by decide)]
    rfl
  have hval : pairVal ("ticket=".data ++ id) = id := by
    unfold pairVal
    rw [dropWhile_append_not_all (by decide)]
    rfl
  unfold searchParamsGet
  rw [hsplit]
  rw [show (["ticket=".data ++ id].filter (fun p => !p.isEmpty))
      = ["ticket=".data ++ id] from rfl]
  rw [List.find?_cons_of_pos _ (by rw [hkey]; exact beq_self_eq_true _)]
  simp only [hval]

theorem trimList_url_ticket_append {id : List Char} (hid : id ≠ [])
    (hv : ∀ c ∈ id, isIdChar c = true) :
    trimList ("https://host/path?ticket=".data ++ id)
      = "https://host/path?ticket=".data ++ id := by
  apply trimList_eq_self_ends
  · intro c hc
    rw [show ("https://host/path?ticket=".data ++ id).head? = some 'h' from rfl]
      at hc
    cases hc
    decide
  · intro c hc
    rw [List.getLast?_append_of_ne_nil _ hid] at hc
    exact idChar_not_ws (hv c (List.mem_of_getLast?_eq_some hc))

theorem extract_url_append {id : List Char} (hid : id ≠ [])
    (hv : ∀ c ∈ id, isIdChar c = true) :
    extractTicketAddressFromInput ("https://host/path?ticket=".data ++ id)
      = some id := by
  have hidE : id.isEmpty = false := by
    cases id with
    | nil => exact absurd rfl hid
    | cons _ _ => rfl
  have c2 : strStartsWith ("https://host/path?ticket=".data ++ id)
      "http://".data = false := by
    rw [strStartsWith_append_of_le (by decide)]; decide
  have c3 : strStartsWith ("https://host/path?ticket=".data ++ id)
      "https://".data = true := by
    rw [strStartsWith_append_of_le (by decide)]; decide
  unfold extractTicketAddressFromInput
  rw [trimList_url_ticket_append hid hv]
  rw [show ("https://host/path?ticket=".data ++ id).isEmpty = false from rfl]
  rw [c2, c3]
  simp only [Bool.false_eq_true, if_false, Bool.false_or, if_true]
  unfold urlTicketRule
  rw [urlQueryOf_ticket_append hv]
  simp only [searchParamsGet_ticket_append hv, hidE, Bool.false_eq_true,
    if_false, trimList_eq_self_all (fun c hc => idChar_not_ws (hv c hc))]

theorem extract_substring_append {id : List Char} (hid : id ≠ [])
    (hv : ∀ c ∈ id, isIdChar c = true) :
    extractTicketAddressFromInput
      ("prefix ticket=".data ++ id ++ " suffix".data) = some id := by
  rw [List.append_assoc]
  have hidE : id.isEmpty = false := by
    cases id with
    | nil => exact absurd rfl hid
    | cons _ _ => rfl
  have htrim : trimList ("prefix ticket=".data ++ (id ++ " suffix".data))
      = "prefix ticket=".data ++ (id ++ " suffix".data) := by
    apply trimList_eq_self_ends
    · intro c hc
      rw [show ("prefix ticket=".data ++ (id ++ " suffix".data)).head?
        = some 'p' from rfl] at hc
      cases hc
      decide
    · intro c hc
      rw [show "prefix ticket=".data ++ (id ++ " suffix".data)
          = ("prefix ticket=".data ++ id) ++ " suffix".data from
        (List.append_assoc _ _ _).symm] at hc
      rw [List.getLast?_append_of_ne_nil _ (by decide)] at hc
      rw [show (" suffix".data).getLast? = some 'x' from by decide] at hc
      cases hc
      decide
  have hafter : afterFirst "ticket=".data
      ("prefix ticket=".data ++ (id ++ " suffix".data))
      = some (id ++ " suffix".data) := by
    rw [show "prefix ticket=".data
      = ['p','r','e','f','i','x',' ','t','i','c','k','e','t','='] from rfl]
    rw [show "ticket=".data = ['t','i','c','k','e','t','='] from rfl]
    simp [afterFirst, strStartsWith_cons, strStartsWith_nil_pat]
  have c2 : strStartsWith ("prefix ticket=".data ++ (id ++ " suffix".data))
      "http://".data = false := by
    rw [strStartsWith_append_of_le (by decide)]; decide
  have c3 : strStartsWith ("prefix ticket=".data ++ (id ++ " suffix".data))
      "https://".data = false := by
    rw [strStartsWith_append_of_le (by decide)]; decide
  have hcand : (id ++ " suffix".data).takeWhile
      (fun c => !(c == '&' || c == '#' || c == '?' || jsWs c)) = id := by
    rw [List.takeWhile_append_of_pos (fun c hc => idChar_sep (hv c hc))]
    rw [show (" suffix".data).takeWhile
        (fun c => !(c == '&' || c == '#' || c == '?' || jsWs c)) = [] from
      by decide]
    exact List.append_nil id
  unfold extractTicketAddressFromInput
  rw [htrim]
  rw [show ("prefix ticket=".data ++ (id ++ " suffix".data)).isEmpty = false
    from rfl]
  rw [c2, c3, hafter]
  simp only [Bool.false_eq_true, if_false, Bool.or_self]
  unfold ticketSubstringRule
  simp only [hcand, trimList_eq_self_all (fun c hc => idChar_not_ws (hv c hc)),
    hidE, Bool.false_eq_true, if_false]

theorem extract_raw_id {id : List Char} (hid : id ≠ [])
    (hv : ∀ c ∈ id, isIdChar c = true)
    (h1 : strStartsWith id "http://".data = false)
    (h2 : strStartsWith id "https://".data = false)
    (h3 : afterFirst "ticket=".data id = none) :
    extractTicketAddressFromInput id = some id := by
  have htrim : trimList id = id :=
    trimList_eq_self_all (fun c hc => idChar_not_ws (hv c hc))
  have hidE : id.isEmpty = false := by
    cases id with
    | nil => exact absurd rfl hid
    | cons _ _ => rfl
  unfold extractTicketAddressFromInput
  rw [htrim, hidE, h1, h2, h3]
  simp

theorem extract_of_scheme {raw : List Char}
    (h : (strStartsWith (trimList raw) "http://".data
      || strStartsWith (trimList raw) "https://".data) = true) :
    extractTicketAddressFromInput raw = urlTicketRule (trimList raw) := by
  have hne : (trimList raw).isEmpty = false := by
    cases ht : trimList raw with
    | nil =>
      rw [ht] at h
      exact absurd h (by decide)
    | cons _ _ => rfl
  unfold extractTicketAddressFromInput
  rw [hne, h]
  simp

/-! ## Helper lemmas: handler trace analysis -/

theorem handleJoinEvent_join_mem {env : JoinEnv} {p : List Char} {t : List Nat}
    (h : Eff.rpcJoinEvent t ∈ (handleJoinEvent env p).1) :
    (∃ s, env.sendSetupResult = Except.ok s) ∧
    ∃ m a l, (handleJoinEvent env p).1
      = Eff.getRent :: Eff.sendSetupTx m a :: Eff.rpcJoinEvent t :: l := by
  obtain ⟨prog, wk, evs, mk, rent, setup, join⟩ := env
  cases wk with
  | none => simp [handleJoinEvent] at h
  | some user =>
    cases prog with
    | false => simp [handleJoinEvent] at h
    | true =>
      cases hpe : p.isEmpty with
      | true => simp [handleJoinEvent, hpe] at h
      | false =>
        cases hpk : parsePubkey p with
        | none => simp [handleJoinEvent, hpe, hpk] at h
        | some epk =>
          cases hfd : evs.find? (fun e => e.pubkey == epk) with
          | none => simp [handleJoinEvent, hpe, hpk, hfd] at h
          | some ev =>
            cases rent with
            | error u => simp [handleJoinEvent, hpe, hpk, hfd] at h
            | ok r =>
              cases setup with
              | error u => simp [handleJoinEvent, hpe, hpk, hfd] at h
              | ok s =>
                cases join with
                | error u =>
                  obtain rfl : t = deriveTicketPda epk user := by
                    simpa [handleJoinEvent, hpe, hpk, hfd] using h
                  exact ⟨⟨s, rfl⟩, mk, deriveMintAuthPda mk, [],
                    by simp [handleJoinEvent, hpe, hpk, hfd]⟩
                | ok s2 =>
                  obtain rfl : t = deriveTicketPda epk user := by
                    simpa [handleJoinEvent, hpe, hpk, hfd] using h
                  exact ⟨⟨s, rfl⟩, mk, deriveMintAuthPda mk, [.refreshTickets],
                    by simp [handleJoinEvent, hpe, hpk, hfd]⟩

/-! ## Claims -/

/-- C1: In the join-event flow, the join program invocation is never
submitted before the setup transaction (create mint account, initialize
mint, create buyer associated account) has been confirmed — whenever the
join invocation occurs in the trace, the setup submission precedes it and
succeeded; and if the setup submission fails (throws), no join submission is
ever issued. -/
theorem C1_join_setup_ordering :
    ∀ (env : JoinEnv) (p : List Char),
      (∀ e, env.sendSetupResult = Except.error e →
        ∀ t, Eff.rpcJoinEvent t ∉ (handleJoinEvent env p).1) ∧
      (∀ t, Eff.rpcJoinEvent t ∈ (handleJoinEvent env p).1 →
        (∃ s, env.sendSetupResult = Except.ok s) ∧
        ∃ m a l, (handleJoinEvent env p).1
          = Eff.getRent :: Eff.sendSetupTx m a :: Eff.rpcJoinEvent t :: l) := by
  intro env p
  constructor
  · intro e he t hmem
    obtain ⟨⟨s, hs⟩, _⟩ := handleJoinEvent_join_mem hmem
    rw [he] at hs
    exact absurd hs (by simp)
  · exact fun t ht => handleJoinEvent_join_mem ht

/-- C1 witness: a failing setup submission issues no join invocation, and a
fully successful run has the setup effect strictly before the join effect. -/
theorem C1_join_setup_ordering_witness :
    Eff.rpcJoinEvent (deriveTicketPda (List.replicate 32 0) [9])
      ∉ (handleJoinEvent ⟨true, some [9], [⟨List.replicate 32 0, [9]⟩], [7],
          Except.ok 1, Except.error (), Except.ok []⟩ (List.replicate 32 '1')).1 ∧
    ((∃ s, (Except.ok [] : Except Unit (List Char)) = Except.ok s) ∧
      ∃ m a l, (handleJoinEvent ⟨true, some [9], [⟨List.replicate 32 0, [9]⟩], [7],
          Except.ok 1, Except.ok [], Except.ok []⟩ (List.replicate 32 '1')).1
        = Eff.getRent :: Eff.sendSetupTx m a
          :: Eff.rpcJoinEvent (deriveTicketPda (List.replicate 32 0) [9]) :: l) := by
  constructor
  · exact (C1_join_setup_ordering ⟨true, some [9], [⟨List.replicate 32 0, [9]⟩],
      [7], Except.ok 1, Except.error (), Except.ok []⟩
      (List.replicate 32 '1')).1 () rfl _
  · exact (C1_join_setup_ordering ⟨true, some [9], [⟨List.replicate 32 0, [9]⟩],
      [7], Except.ok 1, Except.ok [], Except.ok []⟩
      (List.replicate 32 '1')).2 _ (by decide)

/-- C2: The link extractor implements the four-rule algorithm with
first-match-wins ordering: for every valid identifier `id`,
`extract("https://host/path?ticket=" ++ id) = id`,
`extract("prefix ticket=" ++ id ++ " suffix") = id`, and `extract(id) = id`
when `id` has no URL scheme and no `ticket=` substring; `extract("")`,
`extract("   ")` and `extract("https://host/path?other=1")` yield null; an
input beginning with an http(s) scheme is always handled by the URL rule
(never the substring rule); and a malformed URL yields null rather than an
exception (the extractor is a total function). -/
theorem C2_extractor_algorithm :
    (∀ id : List Char, validId id →
      extractTicketAddressFromInput ("https://host/path?ticket=".data ++ id)
        = some id ∧
      extractTicketAddressFromInput
        ("prefix ticket=".data ++ id ++ " suffix".data) = some id ∧
      (strStartsWith id "http://".data = false →
        strStartsWith id "https://".data = false →
        afterFirst "ticket=".data id = none →
        extractTicketAddressFromInput id = some id)) ∧
    extractTicketAddressFromInput "".data = none ∧
    extractTicketAddressFromInput "   ".data = none ∧
    extractTicketAddressFromInput "https://host/path?other=1".data = none ∧
    (∀ raw : List Char,
      (strStartsWith (trimList raw) "http://".data
        || strStartsWith (trimList raw) "https://".data) = true →
      extractTicketAddressFromInput raw = urlTicketRule (trimList raw)) ∧
    extractTicketAddressFromInput "https://".data = none := by
  refine ⟨?_, by decide, by decide, by decide, ?_, by decide⟩
  · intro id hv
    exact ⟨extract_url_append hv.1 hv.2, extract_substring_append hv.1 hv.2,
      fun h1 h2 h3 => extract_raw_id hv.1 hv.2 h1 h2 h3⟩
  · exact fun raw h => extract_of_scheme h

/-- C2 witness at the identifier `abc123` and a scheme-carrying raw input. -/
theorem C2_extractor_algorithm_witness :
    extractTicketAddressFromInput
      ("https://host/path?ticket=".data ++ "abc123".data) = some "abc123".data ∧
    extractTicketAddressFromInput
      ("prefix ticket=".data ++ "abc123".data ++ " suffix".data)
      = some "abc123".data ∧
    extractTicketAddressFromInput "abc123".data = some "abc123".data ∧
    extractTicketAddressFromInput "https://host/path?ticket=xyz".data
      = urlTicketRule (trimList "https://host/path?ticket=xyz".data) := by
  refine ⟨(C2_extractor_algorithm.1 "abc123".data ⟨by decide, by decide⟩).1,
    (C2_extractor_algorithm.1 "abc123".data ⟨by decide, by decide⟩).2.1,
    (C2_extractor_algorithm.1 "abc123".data ⟨by decide, by decide⟩).2.2
      (by decide) (by decide) (by decide),
    C2_extractor_algorithm.2.2.2.2.1 "https://host/path?ticket=xyz".data
      (by decide)⟩

/-- C3: Address derivation is deterministic: for every (tag, seeds) pair two
derivations with identical inputs yield identical addresses, and the event
and ticket PDA derivations are functions of their inputs only (the
derivation is a pure function in this embedding, as in the platform). -/
theorem C3_derivation_deterministic :
    (∀ (seeds : List (List Nat)) (pid : List Nat),
      findProgramAddressSync seeds pid = findProgramAddressSync seeds pid) ∧
    (∀ (s1 s2 : List Nat) (i1 i2 : Nat), s1 = s2 → i1 = i2 →
      deriveEventPdaFromSigner s1 i1 = deriveEventPdaFromSigner s2 i2) ∧
    (∀ (e1 e2 u1 u2 : List Nat), e1 = e2 → u1 = u2 →
      deriveTicketPda e1 u1 = deriveTicketPda e2 u2) := by
  refine ⟨fun _ _ => rfl, ?_, ?_⟩
  · rintro s1 s2 i1 i2 rfl rfl
    rfl
  · rintro e1 e2 u1 u2 rfl rfl
    rfl

/-- C3 witness at concrete seeds. -/
theorem C3_derivation_deterministic_witness :
    deriveEventPdaFromSigner [1, 2] 3 = deriveEventPdaFromSigner [1, 2] 3 ∧
    deriveTicketPda [4] [5] = deriveTicketPda [4] [5] := by
  exact ⟨C3_derivation_deterministic.2.1 [1, 2] [1, 2] 3 3 rfl rfl,
    C3_derivation_deterministic.2.2 [4] [4] [5] [5] rfl rfl⟩

/-- C4: Create-event price validation: for price input `"-1"` or `"abc"` the
builder raises a domain error before any submission (no effect is issued and
the failure status is reported); inputs `"1,5"` and `"1.5"` are accepted and
both convert to the same smallest-unit integer, computed by rounding the
parsed value (`15 / 10`) times the unit scale. -/
theorem C4_create_price_validation :
    (∀ (env : CreateEnv) (title descr : List Char),
      env.programAvailable = true → (∃ w, env.walletKey = some w) →
      (handleCreateEvent env "-1".data title descr).1 = [] ∧
      (handleCreateEvent env "-1".data title descr).2
        = [.creatingEvent, .failure] ∧
      (handleCreateEvent env "abc".data title descr).1 = [] ∧
      (handleCreateEvent env "abc".data title descr).2
        = [.creatingEvent, .failure]) ∧
    createEventPriceLamports "-1".data = none ∧
    createEventPriceLamports "abc".data = none ∧
    createEventPriceLamports "1,5".data = createEventPriceLamports "1.5".data ∧
    parseFloatJs "1.5".data = some ⟨15, 1⟩ ∧
    createEventPriceLamports "1.5".data
      = some (jsRoundTimes ⟨15, 1⟩ LAMPORTS_PER_SOL) ∧
    jsRoundTimes ⟨15, 1⟩ LAMPORTS_PER_SOL = 1500000000 := by
  refine ⟨?_, by decide, by decide, by decide, by decide, by decide, by decide⟩
  rintro env title descr hp ⟨w, hw⟩
  have h1 : createEventPriceLamports "-1".data = none := by decide
  have h2 : createEventPriceLamports "abc".data = none := by decide
  unfold handleCreateEvent
  rw [hw, hp]
  simp [h1, h2]

/-- C4 witness at a concrete available environment. -/
theorem C4_create_price_validation_witness :
    (handleCreateEvent ⟨true, some [0], 0, Except.ok []⟩ "-1".data [] []).1
      = [] ∧
    (handleCreateEvent ⟨true, some [0], 0, Except.ok []⟩ "abc".data [] []).1
      = [] := by
  obtain ⟨ha, _, hc, _⟩ := C4_create_price_validation.1
    ⟨true, some [0], 0, Except.ok []⟩ [] [] rfl ⟨[0], rfl⟩
  exact ⟨ha, hc⟩

/-- C5 counterexample: the claim "non-numeric input is treated as zero (the
withdrawal proceeds with amount 0)" is false — `parseFloat("abc")` is NaN,
the conversion yields no integer amount, the handler issues no withdraw
invocation; and "truncation" is false for a negative fractional amount,
where `Math.floor` gives -2 while truncation gives -1. -/
theorem C5_counterexample :
    ¬ (withdrawAmountLamports "abc".data = some 0) ∧
    withdrawAmountLamports "abc".data = none ∧
    (handleWithdraw ⟨true, some [9], Except.ok []⟩ (List.replicate 32 '1')
      "abc".data).1 = [] ∧
    parseFloatJs "-0.0000000015".data = some ⟨-15, 10⟩ ∧
    withdrawAmountLamports "-0.0000000015".data = some (-2) ∧
    specTruncTimes ⟨-15, 10⟩ LAMPORTS_PER_SOL = -1 := by
  exact ⟨by decide, by decide, by decide, by decide, by decide, by decide⟩

/-- C5 (amended): the smallest-unit amount is obtained by `Math.floor`,
which coincides with truncation for every nonnegative parsed amount (so
`"0.999"` at unit scale 1000 yields 999); the empty input is treated as
zero; any other non-numeric input parses to NaN and yields no integer amount
(the withdrawal fails rather than proceeding). -/
theorem C5_amended_floor_conversion :
    withdrawAmountAtScale 1000 "0.999".data = some 999 ∧
    withdrawAmountLamports "".data = some 0 ∧
    withdrawAmountLamports "abc".data = none ∧
    (∀ (s : List Char) (x : JsNum) (scale : Nat),
      parseFloatJs (if s.isEmpty then ['0'] else s) = some x →
      withdrawAmountAtScale scale s = some (jsFloorTimes x scale) ∧
      (0 ≤ x.m → jsFloorTimes x scale = specTruncTimes x scale)) := by
  refine ⟨by decide, by decide, by decide, ?_⟩
  intro s x scale hx
  constructor
  · unfold withdrawAmountAtScale
    rw [hx]
  · intro hm
    unfold jsFloorTimes specTruncTimes
    exact Int.fdiv_eq_tdiv (mul_nonneg hm (by positivity)) (by positivity)

/-- C5 amended witness: the floor conversion and its agreement with
truncation at the nonnegative input `"0.999"`, scale 1000. -/
theorem C5_amended_floor_conversion_witness :
    withdrawAmountAtScale 1000 "0.999".data
      = some (jsFloorTimes ⟨999, 3⟩ 1000) ∧
    jsFloorTimes ⟨999, 3⟩ 1000 = specTruncTimes ⟨999, 3⟩ 1000 := by
  have h := C5_amended_floor_conversion.2.2.2 "0.999".data ⟨999, 3⟩ 1000
    (by decide)
  exact ⟨h.1, h.2 (by decide)⟩

/-- C10: Unlike create-event, withdraw performs no comma-to-dot
normalization: `parseFloat("1,5")` parses the numeric prefix `1`, so the
withdrawn smallest-unit amount is 1 times the unit scale, while create-event
converts the same input to 1.5 times the unit scale. -/
theorem C10_withdraw_no_comma_normalization :
    parseFloatJs "1,5".data = some ⟨1, 0⟩ ∧
    withdrawAmountLamports "1,5".data = some (1 * (LAMPORTS_PER_SOL : Int)) ∧
    createEventPriceLamports "1,5".data = some 1500000000 ∧
    (1 * (LAMPORTS_PER_SOL : Int)) ≠ 1500000000 := by
  exact ⟨by decide, by decide, by decide, by decide⟩

theorem orgCheckIn_submit_mem {env : CheckInEnv} {input : List Char}
    {event : EventAccount} {e t : List Nat}
    (h : Eff.rpcCheckIn e t ∈ (handleOrganizerCheckInByAddress env input event).1) :
    ∃ w ex tpk tk, env.walletKey = some w ∧ env.programAvailable = true ∧
      extractTicketAddressFromInput input = some ex ∧ ex.isEmpty = false ∧
      (event.organizer == w) = true ∧ parsePubkey ex = some tpk ∧
      env.fetchTicketAcc tpk = Except.ok tk ∧
      (tk.event == event.pubkey) = true ∧ tk.checkedIn = false ∧
      e = event.pubkey ∧ t = tpk := by
  obtain ⟨prog, wk, fetch, res⟩ := env
  cases wk with
  | none => simp [handleOrganizerCheckInByAddress] at h
  | some w =>
    cases prog with
    | false => simp [handleOrganizerCheckInByAddress] at h
    | true =>
      cases hex : extractTicketAddressFromInput input with
      | none => simp [handleOrganizerCheckInByAddress, hex] at h
      | some ex =>
        cases hee : ex.isEmpty with
        | true => simp [handleOrganizerCheckInByAddress, hex, hee] at h
        | false =>
          cases horg : event.organizer == w with
          | false => simp [handleOrganizerCheckInByAddress, hex, hee, horg] at h
          | true =>
            cases hpk : parsePubkey ex with
            | none => simp [handleOrganizerCheckInByAddress, hex, hee, horg, hpk] at h
            | some tpk =>
              cases hft : fetch tpk with
              | error u =>
                simp [handleOrganizerCheckInByAddress, hex, hee, horg, hpk, hft] at h
              | ok tk =>
                cases hev : tk.event == event.pubkey with
                | false =>
                  simp [handleOrganizerCheckInByAddress, hex, hee, horg, hpk,
                    hft, hev] at h
                | true =>
                  cases hci : tk.checkedIn with
                  | true =>
                    simp [handleOrganizerCheckInByAddress, hex, hee, horg, hpk,
                      hft, hev, hci] at h
                  | false =>
                    cases res with
                    | error u =>
                      obtain ⟨he, ht⟩ : e = event.pubkey ∧ t = tpk := by
                        simpa [handleOrganizerCheckInByAddress, hex, hee, horg,
                          hpk, hft, hev, hci] using h
                      refine ⟨w, ex, tpk, tk, rfl, rfl, ?_, ?_, ?_, ?_, ?_, ?_,
                        ?_, he, ht⟩ <;> first | rfl | assumption
                    | ok s =>
                      obtain ⟨he, ht⟩ : e = event.pubkey ∧ t = tpk := by
                        simpa [handleOrganizerCheckInByAddress, hex, hee, horg,
                          hpk, hft, hev, hci] using h
                      refine ⟨w, ex, tpk, tk, rfl, rfl, ?_, ?_, ?_, ?_, ?_, ?_,
                        ?_, he, ht⟩ <;> first | rfl | assumption

/-- C6: Check-in by pasted address: with the program and wallet available
and the caller being the organizer, an input whose extracted value is not a
well-formed address yields the "invalid ticket public key" diagnostic and no
submission; a well-formed address whose fetched ticket references a
different event yields the "different event" diagnostic and no submission; a
ticket already checked in yields the informational (non-error) no-op message
and no submission; and the check-in invocation is emitted exactly when every
check passes. -/
theorem C6_checkin_by_address :
    (∀ (env : CheckInEnv) (input : List Char) (event : EventAccount)
        (w : List Nat),
      env.programAvailable = true → env.walletKey = some w →
      (event.organizer == w) = true →
      (∀ ex, extractTicketAddressFromInput input = some ex →
        ex.isEmpty = false → parsePubkey ex = none →
        handleOrganizerCheckInByAddress env input event
          = ([], [.errInvalidTicketPubkey])) ∧
      (∀ ex tpk tk, extractTicketAddressFromInput input = some ex →
        ex.isEmpty = false → parsePubkey ex = some tpk →
        env.fetchTicketAcc tpk = Except.ok tk →
        ((tk.event == event.pubkey) = false →
          handleOrganizerCheckInByAddress env input event
            = ([.fetchTicket tpk], [.errDifferentEvent])) ∧
        ((tk.event == event.pubkey) = true → tk.checkedIn = true →
          handleOrganizerCheckInByAddress env input event
            = ([.fetchTicket tpk], [.infoAlreadyCheckedIn])) ∧
        ((tk.event == event.pubkey) = true → tk.checkedIn = false →
          Eff.rpcCheckIn event.pubkey tpk
            ∈ (handleOrganizerCheckInByAddress env input event).1))) ∧
    isErrorStatus .infoAlreadyCheckedIn = false ∧
    isErrorStatus .errInvalidTicketPubkey = true ∧
    isErrorStatus .errDifferentEvent = true ∧
    (∀ (env : CheckInEnv) (input : List Char) (event : EventAccount)
        (e t : List Nat),
      Eff.rpcCheckIn e t ∈ (handleOrganizerCheckInByAddress env input event).1 →
      ∃ w ex tpk tk, env.walletKey = some w ∧ env.programAvailable = true ∧
        extractTicketAddressFromInput input = some ex ∧ ex.isEmpty = false ∧
        (event.organizer == w) = true ∧ parsePubkey ex = some tpk ∧
        env.fetchTicketAcc tpk = Except.ok tk ∧
        (tk.event == event.pubkey) = true ∧ tk.checkedIn = false ∧
        e = event.pubkey ∧ t = tpk) := by
  refine ⟨?_, rfl, rfl, rfl, fun env input event e t h => orgCheckIn_submit_mem h⟩
  intro env input event w hp hw horg
  have horg2 : event.organizer = w := by simpa using horg
  constructor
  · intro ex hex hee hpk
    have hee2 : ex ≠ [] := by simpa using hee
    simp [handleOrganizerCheckInByAddress, hw, hp, hex, hee, hee2, horg, horg2,
      hpk]
  · intro ex tpk tk hex hee hpk hft
    have hee2 : ex ≠ [] := by simpa using hee
    refine ⟨fun hev => ?_, fun hev hci => ?_, fun hev hci => ?_⟩
    · have hev2 : ¬(tk.event = event.pubkey) := by simpa using hev
      simp [handleOrganizerCheckInByAddress, hw, hp, hex, hee, hee2, horg,
        horg2, hpk, hft, hev2]
    · have hev2 : tk.event = event.pubkey := by simpa using hev
      simp [handleOrganizerCheckInByAddress, hw, hp, hex, hee, hee2, horg,
        horg2, hpk, hft, hev2, hci]
    · have hev2 : tk.event = event.pubkey := by simpa using hev
      cases hres : env.checkInResult with
      | error u =>
        simp [handleOrganizerCheckInByAddress, hw, hp, hex, hee, hee2, horg,
          horg2, hpk, hft, hev2, hci, hres]
      | ok s =>
        simp [handleOrganizerCheckInByAddress, hw, hp, hex, hee, hee2, horg,
          horg2, hpk, hft, hev2, hci, hres]

/-- C6 witness: the four branches at concrete inputs — a non-address paste,
a wrong-event ticket, an already-checked-in ticket, and a passing run. -/
theorem C6_checkin_by_address_witness :
    handleOrganizerCheckInByAddress
        ⟨true, some [9], fun _ => Except.ok ⟨[2], false⟩, Except.ok []⟩
        "not-a-valid-address".data ⟨[2], [9]⟩
      = ([], [.errInvalidTicketPubkey]) ∧
    handleOrganizerCheckInByAddress
        ⟨true, some [9], fun _ => Except.ok ⟨[3], false⟩, Except.ok []⟩
        (List.replicate 32 '1') ⟨[2], [9]⟩
      = ([.fetchTicket (List.replicate 32 0)], [.errDifferentEvent]) ∧
    handleOrganizerCheckInByAddress
        ⟨true, some [9], fun _ => Except.ok ⟨[2], true⟩, Except.ok []⟩
        (List.replicate 32 '1') ⟨[2], [9]⟩
      = ([.fetchTicket (List.replicate 32 0)], [.infoAlreadyCheckedIn]) ∧
    Eff.rpcCheckIn [2] (List.replicate 32 0)
      ∈ (handleOrganizerCheckInByAddress
          ⟨true, some [9], fun _ => Except.ok ⟨[2], false⟩, Except.ok []⟩
          (List.replicate 32 '1') ⟨[2], [9]⟩).1 := by
  refine ⟨?_, ?_, ?_, ?_⟩
  · exact ((C6_checkin_by_address.1 _ "not-a-valid-address".data ⟨[2], [9]⟩ [9]
      rfl rfl (by decide)).1 "not-a-valid-address".data (by decide) (by decide)
      (by decide))
  · exact (((C6_checkin_by_address.1 _ (List.replicate 32 '1') ⟨[2], [9]⟩ [9]
      rfl rfl (by decide)).2 (List.replicate 32 '1') (List.replicate 32 0)
      ⟨[3], false⟩ (by decide) (by decide) (by decide) rfl).1 (by decide))
  · exact (((C6_checkin_by_address.1 _ (List.replicate 32 '1') ⟨[2], [9]⟩ [9]
      rfl rfl (by decide)).2 (List.replicate 32 '1') (List.replicate 32 0)
      ⟨[2], true⟩ (by decide) (by decide) (by decide) rfl).2.1 (by decide)
      (by decide))
  · exact (((C6_checkin_by_address.1 _ (List.replicate 32 '1') ⟨[2], [9]⟩ [9]
      rfl rfl (by decide)).2 (List.replicate 32 '1') (List.replicate 32 0)
      ⟨[2], false⟩ (by decide) (by decide) (by decide) rfl).2.2 (by decide)
      (by decide))

/-- C7: Deep-link resolution end-to-end: given a load URL carrying
`?ticket=T1`, a ticket fetch returning a record with event field `E1`, and
an events collection that later contains an event with address `E1`, the
resolved selection equals that event; if the collection contains only other
events, the selection remains unresolved and no error status is set. -/
theorem C7_deeplink_resolution :
    ∀ (tid : List Char) (fetch : List Nat → Except Unit TicketAccount)
      (events : List EventAccount) (pk : List Nat) (acc : TicketAccount),
      validId tid → parsePubkey tid = some pk → fetch pk = Except.ok acc →
      (∀ ev, events.find? (fun e => e.pubkey == acc.event) = some ev →
        (stepSelectEvent events (stepFetchTicket true fetch
          (stepParseUrl ("https://host/path?ticket=".data ++ tid)
            initSt))).selectedEvent = some ev) ∧
      ((∀ e ∈ events, (e.pubkey == acc.event) = false) →
        stepSelectEvent events (stepFetchTicket true fetch
          (stepParseUrl ("https://host/path?ticket=".data ++ tid) initSt))
          = stepFetchTicket true fetch
              (stepParseUrl ("https://host/path?ticket=".data ++ tid) initSt) ∧
        (stepSelectEvent events (stepFetchTicket true fetch
          (stepParseUrl ("https://host/path?ticket=".data ++ tid)
            initSt))).selectedEvent = none ∧
        (stepSelectEvent events (stepFetchTicket true fetch
          (stepParseUrl ("https://host/path?ticket=".data ++ tid)
            initSt))).txStatus = none) := by
  intro tid fetch events pk acc hv hpk hf
  have htid : trimList tid = tid :=
    trimList_eq_self_all (fun c hc => idChar_not_ws (hv.2 c hc))
  have htide : tid.isEmpty = false := by
    cases htt : tid with
    | nil => exact absurd htt hv.1
    | cons _ _ => rfl
  have hurl : stepParseUrl ("https://host/path?ticket=".data ++ tid) initSt
      = (⟨some tid, none, none, .explore, none⟩ : DeepSt) := by
    unfold stepParseUrl
    rw [urlQueryOf_ticket_append hv.2]
    simp only [searchParamsGet_ticket_append hv.2, htide, Bool.false_eq_true,
      if_false, htid]
    rfl
  have hfetch : stepFetchTicket true fetch
      (⟨some tid, none, none, .explore, none⟩ : DeepSt)
      = (⟨some tid, some acc.event, none, .explore, none⟩ : DeepSt) := by
    unfold stepFetchTicket
    simp [hpk, hf]
  rw [hurl, hfetch]
  constructor
  · intro ev hfind
    have hne : events.isEmpty = false := by
      cases events with
      | nil => simp at hfind
      | cons _ _ => rfl
    unfold stepSelectEvent
    simp [hfind, hne]
  · intro hall
    have hfind : events.find? (fun e => e.pubkey == acc.event) = none := by
      rw [List.find?_eq_none]
      intro x hx
      rw [hall x hx]
      simp
    have hstep : stepSelectEvent events
        (⟨some tid, some acc.event, none, .explore, none⟩ : DeepSt)
        = (⟨some tid, some acc.event, none, .explore, none⟩ : DeepSt) := by
      unfold stepSelectEvent
      simp [hfind]
    exact ⟨hstep, by rw [hstep], by rw [hstep]⟩

/-- C7 witness: a concrete run with a matching collection and a concrete run
with a non-matching collection. -/
theorem C7_deeplink_resolution_witness :
    (stepSelectEvent [⟨[5], [9]⟩] (stepFetchTicket true
      (fun _ => Except.ok ⟨[5], false⟩)
      (stepParseUrl ("https://host/path?ticket=".data ++ List.replicate 32 '1')
        initSt))).selectedEvent = some ⟨[5], [9]⟩ ∧
    (stepSelectEvent [⟨[6], [9]⟩] (stepFetchTicket true
      (fun _ => Except.ok ⟨[5], false⟩)
      (stepParseUrl ("https://host/path?ticket=".data ++ List.replicate 32 '1')
        initSt))).selectedEvent = none ∧
    (stepSelectEvent [⟨[6], [9]⟩] (stepFetchTicket true
      (fun _ => Except.ok ⟨[5], false⟩)
      (stepParseUrl ("https://host/path?ticket=".data ++ List.replicate 32 '1')
        initSt))).txStatus = none := by
  refine ⟨?_, ?_, ?_⟩
  · exact (C7_deeplink_resolution (List.replicate 32 '1')
      (fun _ => Except.ok ⟨[5], false⟩) [⟨[5], [9]⟩] (List.replicate 32 0)
      ⟨[5], false⟩ ⟨by decide, by decide⟩ (by decide) rfl).1 ⟨[5], [9]⟩
      (by decide)
  · exact ((C7_deeplink_resolution (List.replicate 32 '1')
      (fun _ => Except.ok ⟨[5], false⟩) [⟨[6], [9]⟩] (List.replicate 32 0)
      ⟨[5], false⟩ ⟨by decide, by decide⟩ (by decide) rfl).2 (by decide)).2.1
  · exact ((C7_deeplink_resolution (List.replicate 32 '1')
      (fun _ => Except.ok ⟨[5], false⟩) [⟨[6], [9]⟩] (List.replicate 32 0)
      ⟨[5], false⟩ ⟨by decide, by decide⟩ (by decide) rfl).2 (by decide)).2.2

/-- C8 counterexample: the deep-link state is not "never reset except by a
fresh page load" — after the ticket fetch succeeds (resolved parent `[5]`),
a re-run of the fetch stage whose fetch fails resets the resolved parent to
`null` (and sets an error status), reverting a state already reached without
any page load. -/
theorem C8_counterexample :
    (stepFetchTicket true (fun _ => Except.ok ⟨[5], false⟩)
      (stepParseUrl ("https://host/path?ticket=".data ++ List.replicate 32 '1')
        initSt)).deepLinkEventPubkey = some [5] ∧
    (stepFetchTicket true (fun _ => Except.error ())
      (stepFetchTicket true (fun _ => Except.ok ⟨[5], false⟩)
        (stepParseUrl
          ("https://host/path?ticket=".data ++ List.replicate 32 '1')
          initSt))).deepLinkEventPubkey = none ∧
    (stepFetchTicket true (fun _ => Except.error ())
      (stepFetchTicket true (fun _ => Except.ok ⟨[5], false⟩)
        (stepParseUrl
          ("https://host/path?ticket=".data ++ List.replicate 32 '1')
          initSt))).txStatus = some .errInvalidDeepLinkTicket := by
  exact ⟨by decide, by decide, by decide⟩

/-- C8 (amended): the machine is forward-only except on a failing re-run of
the ticket fetch: the selection stage never unselects a previously resolved
selection, an events refresh with no match for the resolved parent leaves
the state entirely unchanged, and a successful ticket fetch always moves the
parent forward; only a failing fetch re-run resets the resolved parent (and
sets an error status), as exhibited by the counterexample. -/
theorem C8_amended_forward_only :
    (∀ (events : List EventAccount) (s : DeepSt) (e : EventAccount),
      s.selectedEvent = some e →
      ∃ e2, (stepSelectEvent events s).selectedEvent = some e2) ∧
    (∀ (events : List EventAccount) (s : DeepSt) (pk : List Nat),
      s.deepLinkEventPubkey = some pk →
      events.find? (fun ev => ev.pubkey == pk) = none →
      stepSelectEvent events s = s) ∧
    (∀ (fetch : List Nat → Except Unit TicketAccount) (s : DeepSt)
        (t : List Char) (pk : List Nat) (acc : TicketAccount),
      s.deepLinkTicket = some t → parsePubkey t = some pk →
      fetch pk = Except.ok acc →
      (stepFetchTicket true fetch s).deepLinkEventPubkey = some acc.event) := by
  refine ⟨?_, ?_, ?_⟩
  · intro events s e hsel
    unfold stepSelectEvent
    cases hd : s.deepLinkEventPubkey with
    | none => exact ⟨e, hsel⟩
    | some pk =>
      cases he : events.isEmpty with
      | true =>
        simp only [he]
        exact ⟨e, by simpa using hsel⟩
      | false =>
        cases hfd : events.find? (fun ev => ev.pubkey == pk) with
        | none =>
          simp only [he, hfd]
          exact ⟨e, by simpa using hsel⟩
        | some m =>
          simp only [he, hfd]
          exact ⟨m, by simp⟩
  · intro events s pk hd hf
    unfold stepSelectEvent
    rw [hd]
    simp [hf]
  · intro fetch s t pk acc ht hpk hf
    unfold stepFetchTicket
    simp [ht, hpk, hf]

/-- C8 amended witness: concrete instances of the three conjuncts. -/
theorem C8_amended_forward_only_witness :
    (∃ e2, (stepSelectEvent ([] : List EventAccount)
      (⟨none, none, some ⟨[5], [9]⟩, .explore, none⟩ : DeepSt)).selectedEvent
      = some e2) ∧
    stepSelectEvent [(⟨[6], [9]⟩ : EventAccount)]
      (⟨none, some [5], some ⟨[5], [9]⟩, .explore, none⟩ : DeepSt)
      = (⟨none, some [5], some ⟨[5], [9]⟩, .explore, none⟩ : DeepSt) ∧
    (stepFetchTicket true (fun _ => Except.ok ⟨[5], false⟩)
      (⟨some (List.replicate 32 '1'), none, none, .explore,
        none⟩ : DeepSt)).deepLinkEventPubkey = some [5] := by
  refine ⟨?_, ?_, ?_⟩
  · exact C8_amended_forward_only.1 []
      (⟨none, none, some ⟨[5], [9]⟩, .explore, none⟩ : DeepSt) ⟨[5], [9]⟩ rfl
  · exact C8_amended_forward_only.2.1 [(⟨[6], [9]⟩ : EventAccount)]
      (⟨none, some [5], some ⟨[5], [9]⟩, .explore, none⟩ : DeepSt) [5] rfl
      (by decide)
  · exact C8_amended_forward_only.2.2 (fun _ => Except.ok ⟨[5], false⟩)
      (⟨some (List.replicate 32 '1'), none, none, .explore, none⟩ : DeepSt)
      (List.replicate 32 '1') (List.replicate 32 0) ⟨[5], false⟩ rfl
      (by decide) rfl

/-- C9: For every action handler (create-event, join-event, withdraw,
self-service check-in, check-in by address), if the backend program handle
or the wallet public key is unavailable, the handler returns immediately as
a silent no-op: no effect is issued and no status write occurs. -/
theorem C9_guard_silent_noop :
    ∀ (prog : Bool) (wk : Option (List Nat)),
      prog = false ∨ wk = none →
      (∀ (now : Nat) (r : Except Unit (List Char))
          (price title descr : List Char),
        handleCreateEvent ⟨prog, wk, now, r⟩ price title descr = ([], [])) ∧
      (∀ evs mk rent setup join p,
        handleJoinEvent ⟨prog, wk, evs, mk, rent, setup, join⟩ p = ([], [])) ∧
      (∀ (r : Except Unit (List Char)) (evp amt : List Char),
        handleWithdraw ⟨prog, wk, r⟩ evp amt = ([], [])) ∧
      (∀ (f : List Nat → Except Unit TicketAccount)
          (r : Except Unit (List Char)) (tpk : List Nat)
          (event : EventAccount),
        handleCheckIn ⟨prog, wk, f, r⟩ tpk event = ([], [])) ∧
      (∀ (f : List Nat → Except Unit TicketAccount)
          (r : Except Unit (List Char)) (input : List Char)
          (event : EventAccount),
        handleOrganizerCheckInByAddress ⟨prog, wk, f, r⟩ input event
          = ([], [])) := by
  intro prog wk h
  rcases h with rfl | rfl
  · exact ⟨fun now r price title descr => by cases wk <;> rfl,
      fun evs mk rent setup join p => by cases wk <;> rfl,
      fun r evp amt => by cases wk <;> rfl,
      fun f r tpk event => by cases wk <;> rfl,
      fun f r input event => by cases wk <;> rfl⟩
  · exact ⟨fun _ _ _ _ _ => rfl, fun _ _ _ _ _ _ => rfl, fun _ _ _ => rfl,
      fun _ _ _ _ => rfl, fun _ _ _ _ => rfl⟩

/-- C9 witness: a missing program handle with a connected wallet is a silent
no-op for the create, withdraw and check-in-by-address handlers. -/
theorem C9_guard_silent_noop_witness :
    handleCreateEvent ⟨false, some [1], 0, Except.ok []⟩ "1".data [] []
      = ([], []) ∧
    handleWithdraw ⟨false, some [1], Except.ok []⟩ "x".data "1".data
      = ([], []) ∧
    handleOrganizerCheckInByAddress
      ⟨false, some [1], fun _ => Except.error (), Except.ok []⟩ "x".data
      ⟨[2], [9]⟩ = ([], []) := by
  have h := C9_guard_silent_noop false (some [1]) (Or.inl rfl)
  exact ⟨h.1 0 (Except.ok []) "1".data [] [],
    h.2.2.1 (Except.ok []) "x".data "1".data,
    h.2.2.2.2 (fun _ => Except.error ()) (Except.ok []) "x".data ⟨[2], [9]⟩⟩
